import Mathlib

/-!
Verification of the Sales email-extraction pipeline.

Shallow embedding of the core functions of the repository:
  * src/src/utils.py          (validation, harvesting regex, proxy vetting, url mapping, stats)
  * src/src/email_extractor.py (EmailExtractor: fetch with retries, extraction, batch loop)
  * src/src/utils_email.py    (ExtractionEmail: fetch, extraction, OGRN mapping)
  * src/email_extractor.py    (legacy top-level extractor module)

Strings are modelled as Lean strings; character-level work is done on
List Char so that everything reduces in the kernel.  Network and
randomness are modelled as explicit oracles (an outcome per attempt, a
random draw per attempt).
-/

/-! ### Generic character / string helpers -/

/-- Splitting a character list at every occurrence of a separator, like the
Python str.split method: the separators are dropped and empty pieces are
kept, so splitting the empty list yields one empty piece. -/
def splitOnCharAux (sep : Char) : List Char → List Char → List (List Char)
  | [], acc => [acc.reverse]
  | c :: rest, acc =>
      if c = sep then acc.reverse :: splitOnCharAux sep rest []
      else splitOnCharAux sep rest (c :: acc)

def splitOnChar (sep : Char) (l : List Char) : List (List Char) :=
  splitOnCharAux sep l []

/-- Lexicographic comparison of character lists by code point, the order the
Python sorted builtin uses on strings. -/
def listCharLe : List Char → List Char → Bool
  | [], _ => true
  | _ :: _, [] => false
  | a :: as, b :: bs =>
      if a.toNat < b.toNat then true
      else if b.toNat < a.toNat then false
      else listCharLe as bs

def strLe (a b : String) : Bool := listCharLe a.toList b.toList

theorem listCharLe_total (a b : List Char) :
    listCharLe a b = true ∨ listCharLe b a = true := by
  induction a generalizing b with
  | nil => left; rfl
  | cons x xs ih =>
    cases b with
    | nil => right; rfl
    | cons y ys =>
      simp only [listCharLe]
      rcases Nat.lt_trichotomy x.toNat y.toNat with h | h | h
      · left; simp [h]
      · have h1 : ¬ x.toNat < y.toNat := by omega
        have h2 : ¬ y.toNat < x.toNat := by omega
        simpa [h1, h2] using ih ys
      · right; simp [h, Nat.lt_asymm h]

theorem listCharLe_trans (a b c : List Char) (hab : listCharLe a b = true)
    (hbc : listCharLe b c = true) : listCharLe a c = true := by
  induction a generalizing b c with
  | nil => rfl
  | cons x xs ih =>
    cases b with
    | nil => simp [listCharLe] at hab
    | cons y ys =>
      cases c with
      | nil => simp [listCharLe] at hbc
      | cons z zs =>
        simp only [listCharLe] at hab hbc ⊢
        split_ifs at hab hbc ⊢ <;> try rfl
        all_goals first
          | omega
          | (exact ih ys zs (by assumption) (by assumption))

instance : IsTotal String (fun a b => strLe a b = true) :=
  ⟨fun a b => listCharLe_total a.toList b.toList⟩

instance : IsTrans String (fun a b => strLe a b = true) :=
  ⟨fun a b c => listCharLe_trans a.toList b.toList c.toList⟩

/-- Model of the Python expression sorted(list(set(xs))) for lists of
strings: duplicates removed, result ascending in code-point order. -/
def dedupSort (l : List String) : List String :=
  List.insertionSort (fun a b => strLe a b = true) l.dedup

theorem mem_dedupSort {a : String} {l : List String} : a ∈ dedupSort l ↔ a ∈ l := by
  rw [dedupSort, (List.perm_insertionSort _ _).mem_iff, List.mem_dedup]

theorem nodup_dedupSort (l : List String) : (dedupSort l).Nodup :=
  (List.perm_insertionSort _ _).nodup_iff.mpr (List.nodup_dedup l)

theorem sorted_dedupSort (l : List String) :
    (dedupSort l).Sorted (fun a b => strLe a b = true) :=
  List.sorted_insertionSort _ _

/-! ### Strict email validation (src/src/utils.py, is_valid_email)

The Python function matches the anchored pattern
(see utils.py line 101): a local part of one-or-more atom characters
optionally separated by single dots, an at sign, then two-or-more DNS
labels separated by dots, each label starting and ending in a lowercase
alphanumeric with optional inner hyphens.  All letter classes in the
pattern are lowercase and re.match is called without re.IGNORECASE. -/

def isLowerAlpha (c : Char) : Bool := 'a' ≤ c && c ≤ 'z'

def isDigitChar (c : Char) : Bool := '0' ≤ c && c ≤ '9'

/-- Code points of the special atom characters allowed in the local part of
the pattern: bang, hash, dollar, percent, ampersand, apostrophe, star,
plus, slash, equals, question mark, caret, underscore, backquote, left
brace, pipe, right brace, tilde and hyphen. -/
def atomSpecialCodes : List Nat :=
  [33, 35, 36, 37, 38, 39, 42, 43, 47, 61, 63, 94, 95, 96, 123, 124, 125, 126, 45]

def isAtomSpecial (c : Char) : Bool := atomSpecialCodes.contains c.toNat

def isAtomChar (c : Char) : Bool := isLowerAlpha c || isDigitChar c || isAtomSpecial c

def isLowerAlnum (c : Char) : Bool := isLowerAlpha c || isDigitChar c

def isLabelChar (c : Char) : Bool := isLowerAlnum c || c = '-'

/-- A DNS label of the pattern: nonempty, inner characters lowercase
alphanumeric or hyphen, first and last character lowercase alphanumeric. -/
def isDomainLabel (l : List Char) : Bool :=
  match l with
  | [] => false
  | c :: rest =>
      isLowerAlnum c && (c :: rest).all isLabelChar &&
        isLowerAlnum ((c :: rest).getLastD c)

/-- Whether a character list matches the full anchored pattern. -/
def matchEmailChars (l : List Char) : Bool :=
  match splitOnChar '@' l with
  | [localPart, domainPart] =>
      (splitOnChar '.' localPart).all (fun atom => !atom.isEmpty && atom.all isAtomChar) &&
      (let labels := splitOnChar '.' domainPart
       decide (2 ≤ labels.length) && labels.all isDomainLabel)
  | _ => false

/-- A Python dollar anchor also matches just before one trailing newline;
this mirrors that quirk of re.match with a dollar-terminated pattern. -/
def stripTrailingNewline (l : List Char) : List Char :=
  match l.getLast? with
  | some c => if c = '\n' then l.dropLast else l
  | none => l

/-- Embedding of is_valid_email (src/src/utils.py lines 87-102). -/
def is_valid_email (email : String) : Bool :=
  if email.toList.isEmpty then false
  else matchEmailChars (stripTrailingNewline email.toList)

/-- Embedding of validate_emails (src/src/utils.py lines 105-115): a list
comprehension keeping the valid addresses, in order, duplicates included. -/
def validate_emails (emails : List String) : List String :=
  emails.filter (fun e => is_valid_email e)

-- The valid and invalid samples from src/tests/test_extractor.py.
example : is_valid_email "test@example.com" = true := by decide
example : is_valid_email "user.name@domain.co.uk" = true := by decide
example : is_valid_email "user+tag@example.org" = true := by decide
example : is_valid_email "user123@test-domain.com" = true := by decide
example : is_valid_email "invalid-email" = false := by decide
example : is_valid_email "@example.com" = false := by decide
example : is_valid_email "test@" = false := by decide
example : is_valid_email "test@.com" = false := by decide
example : is_valid_email "test..test@example.com" = false := by decide
example : is_valid_email "" = false := by decide

/-! ### Harvesting regex (extract_emails_from_text)

Both extractor modules harvest candidates with a findall over the pattern
local at-sign domain dot tld, where the local part is one-or-more
characters from the class letters, digits, dot, underscore, percent,
plus, hyphen; the domain is one-or-more characters from letters, digits,
dot, hyphen; and the tld is two-or-more letters.  The version in
src/src/utils.py wraps the pattern in word boundaries and filters the
matches through validate_emails; the legacy module src/email_extractor.py
uses the same pattern without boundaries and returns raw matches.  The
engine below reproduces the leftmost scan with greedy backtracking of the
domain run.  Word characters are the ASCII approximation of the regex
word class (letters, digits, underscore). -/

def isUpperAlpha (c : Char) : Bool := 'A' ≤ c && c ≤ 'Z'

def isAsciiLetter (c : Char) : Bool := isLowerAlpha c || isUpperAlpha c

def harvestLocalChar (c : Char) : Bool :=
  isAsciiLetter c || isDigitChar c || c = '.' || c = '_' || c = '%' || c = '+' || c = '-'

def harvestDomainChar (c : Char) : Bool :=
  isAsciiLetter c || isDigitChar c || c = '.' || c = '-'

def isWordCharB (c : Char) : Bool := isAsciiLetter c || isDigitChar c || c = '_'

def wordOpt : Option Char → Bool
  | some c => isWordCharB c
  | none => false

/-- A word boundary sits between two positions whose wordness differs; at
the ends of the text the missing neighbour counts as non-word. -/
def boundaryAt (prev : Option Char) (c : Char) : Bool :=
  wordOpt prev != isWordCharB c

/-- One backtracking step of the domain tail: with dom the maximal run of
domain characters after the at sign and rest the text after that run, try
to place the final dot of the pattern at index k of dom.  The two-or-more
letters after the dot are taken greedily; with boundaries on, the
character after them must be non-word (shorter letter runs always end
before a letter, so only the maximal run can close the boundary).
Returns the number of dom characters consumed by a successful tail. -/
def trySplitAt (wb : Bool) (dom rest : List Char) (k : Nat) : Option Nat :=
  if dom.get? k = some '.' then
    let ls := (dom.drop (k + 1)).takeWhile isAsciiLetter
    let rs := (dom.drop (k + 1)).dropWhile isAsciiLetter
    if decide (2 ≤ ls.length) && (!wb || !(wordOpt (rs ++ rest).head?)) then
      some (k + 1 + ls.length)
    else none
  else none

/-- Greedy backtracking over the split point, from the longest domain run
before the final dot down to a single character. -/
def domSplitGo (wb : Bool) (dom rest : List Char) : Nat → Option Nat
  | 0 => none
  | Nat.succ k =>
      match trySplitAt wb dom rest (Nat.succ k) with
      | some e => some e
      | none => domSplitGo wb dom rest k

/-- Attempt a match of the pattern anchored at the current position; prev
is the character just before that position.  On success returns the
matched characters and the remaining text after the match. -/
def tryMatch (wb : Bool) (prev : Option Char) (cs : List Char) :
    Option (List Char × List Char) :=
  match cs with
  | [] => none
  | c0 :: _ =>
    if wb && !(boundaryAt prev c0) then none
    else
      let loc := cs.takeWhile harvestLocalChar
      let rest1 := cs.dropWhile harvestLocalChar
      if loc.isEmpty then none
      else
        match rest1 with
        | '@' :: rest2 =>
          let dom := rest2.takeWhile harvestDomainChar
          let rest3 := rest2.dropWhile harvestDomainChar
          match domSplitGo wb dom rest3 (dom.length - 1) with
          | some e => some (loc ++ '@' :: dom.take e, dom.drop e ++ rest3)
          | none => none
        | _ => none

/-- The findall scan: try a match at every position from left to right;
on success emit it and continue after the match (non-overlapping).  The
fuel starts above the text length and each step consumes at least one
character, so the fuel never runs out. -/
def findAllGo (wb : Bool) : Option Char → List Char → Nat → List (List Char)
  | _, _, 0 => []
  | prev, cs, fuel + 1 =>
    match cs with
    | [] => []
    | c :: rest =>
      match tryMatch wb prev (c :: rest) with
      | some (m, rem) => m :: findAllGo wb m.getLast? rem fuel
      | none => findAllGo wb (some c) rest fuel

def re_findall_email (wb : Bool) (text : String) : List String :=
  (findAllGo wb none text.toList (text.toList.length + 1)).map (fun l => String.mk l)

/-- Embedding of extract_emails_from_text (src/src/utils.py lines 161-179):
empty text short-circuits, then findall with word boundaries, then
validate_emails over the matches. -/
def extract_emails_from_text (text : String) : List String :=
  if text.toList.isEmpty then []
  else validate_emails (re_findall_email true text)

/-- Embedding of extract_emails_from_text of the legacy module
(src/email_extractor.py lines 11-15): findall without word boundaries and
with no validation at all. -/
def legacy_extract_emails_from_text (text : String) : List String :=
  re_findall_email false text

example : re_findall_email true "write to a@b.co or X.Y@Mail.ru today" =
    ["a@b.co", "X.Y@Mail.ru"] := by decide
example : extract_emails_from_text "Mail: Admin@site.com, info@site.com" =
    ["info@site.com"] := by decide
example : re_findall_email true "a@b.co5" = [] := by decide
example : re_findall_email false "a@b.co5" = ["a@b.co"] := by decide
example : extract_emails_from_text "" = [] := by decide

/-! ### HTML document model

A parsed page is modelled as the flat list of its elements in document
order plus the visible text of the whole page.  Each element carries its
tag, its attributes (as raw strings; the data attributes used here are
single-valued in BeautifulSoup) and its visible text. -/

structure HtmlElem where
  tag : String
  attrs : List (String × String)
  text : String
  deriving DecidableEq, Repr

structure HtmlDoc where
  elems : List HtmlElem
  pageText : String
  deriving DecidableEq, Repr

/-- The value of an attribute, like Tag.get with default empty handled at
call sites. -/
def attrVal (e : HtmlElem) (name : String) : Option String :=
  (e.attrs.find? (fun kv => kv.1 = name)).map (fun kv => kv.2)

/-- Whether the text begins with the pattern (second argument). -/
def listBeginsWith : List Char → List Char → Bool
  | _, [] => true
  | [], _ :: _ => false
  | c :: cs, p :: ps => c = p && listBeginsWith cs ps

def strBeginsWith (s pat : String) : Bool := listBeginsWith s.toList pat.toList

def strSplitOnChar (sep : Char) (s : String) : List String :=
  (splitOnChar sep s.toList).map String.mk

/-- A CSS class selector matches an element whose class attribute contains
the given word. -/
def hasClassWord (e : HtmlElem) (cls : String) : Bool :=
  (strSplitOnChar ' ' ((attrVal e "class").getD "")).contains cls

/-- BeautifulSoup find with a class string containing spaces matches only
the whole attribute value, since no single class token can contain a
space.  Used for the company-name anchor lookup. -/
def classAttrIs (e : HtmlElem) (s : String) : Bool :=
  attrVal e "class" = some s

/-- Python str.strip: whitespace removed from both ends. -/
def pyStrip (s : String) : String :=
  String.mk (((s.toList.dropWhile Char.isWhitespace).reverse.dropWhile
    Char.isWhitespace).reverse)

/-! ### The five extraction strategies

Shared by the three extractor revisions; the helper functions below
follow src/src/email_extractor.py lines 146-178 and the equivalent
methods of src/src/utils_email.py. -/

/-- Strategy 1, EmailExtractor form: anchors whose href starts with the
mailto scheme; drop the scheme (seven characters), cut at the first
question mark, keep the remainder when it contains an at sign.  No
stripping in this revision. -/
def mailtoEmails (soup : HtmlDoc) : List String :=
  (soup.elems.filter (fun e =>
      e.tag = "a" && strBeginsWith ((attrVal e "href").getD "") "mailto:")).filterMap
    (fun e =>
      let href := (attrVal e "href").getD ""
      let email := (strSplitOnChar '?' (String.mk (href.toList.drop 7))).headD ""
      if email.toList.contains '@' then some email else none)

/-- Strategy 1, ExtractionEmail form (src/src/utils_email.py lines
162-184): identical except the remainder is also stripped. -/
def mailtoEmailsStripped (soup : HtmlDoc) : List String :=
  (soup.elems.filter (fun e =>
      e.tag = "a" && strBeginsWith ((attrVal e "href").getD "") "mailto:")).filterMap
    (fun e =>
      let href := (attrVal e "href").getD ""
      let email := pyStrip ((strSplitOnChar '?' (String.mk (href.toList.drop 7))).headD "")
      if email.toList.contains '@' then some email else none)

/-- Strategy 2: harvest from the stripped text of every anchor that shows
both an at sign and a dot. -/
def linkTextEmails (soup : HtmlDoc) : List String :=
  (soup.elems.filter (fun e => e.tag = "a")).flatMap (fun e =>
    let t := pyStrip e.text
    if t.toList.contains '@' && t.toList.contains '.' then
      extract_emails_from_text t
    else [])

def DATA_EMAIL_ATTRS : List String := ["data-email", "data-mail", "data-e-mail"]

/-- Strategy 3: elements carrying any of the data attributes; each present
attribute value is harvested, in the fixed attribute order. -/
def dataAttrEmails (soup : HtmlDoc) : List String :=
  (soup.elems.filter (fun e =>
      DATA_EMAIL_ATTRS.any (fun a => (attrVal e a).isSome))).flatMap (fun e =>
    DATA_EMAIL_ATTRS.flatMap (fun a =>
      match attrVal e a with
      | some v => extract_emails_from_text v
      | none => []))

/-- Strategy 4: for each class name of the fixed list, harvest the text of
every element bearing that class. -/
def classEmails (classes : List String) (soup : HtmlDoc) : List String :=
  classes.flatMap (fun cn =>
    (soup.elems.filter (fun e => hasClassWord e cn)).flatMap (fun e =>
      extract_emails_from_text e.text))

def EMAIL_CLASSES : List String := ["email", "mail", "e-mail", "contact-email", "contact-mail"]

/-! ### EmailExtractor.extract_emails_from_webpage
(src/src/email_extractor.py lines 121-191) -/

namespace EmailExtractor

/-- The anchor the company-name lookup searches for: soup.find of an "a"
tag with the exact class string. -/
def findCompanyAnchor (soup : HtmlDoc) : Option HtmlElem :=
  soup.elems.find? (fun e => e.tag = "a" && classAttrIs e "link fw-700 fs-24")

/-- Embedding of EmailExtractor.extract_emails_from_webpage.  The fetched
content arrives already parsed; none models falsy content (failed fetch),
returning the initial empty company and empty list.  When the company
anchor is missing, the text attribute access on None raises and the
blanket except returns the company name bound so far (still empty) with
no emails.  Otherwise the five strategies run in order, the candidates
are validated and the unique sorted list is returned. -/
def extract_emails_from_webpage (content : Option HtmlDoc) : String × List String :=
  match content with
  | none => ("", [])
  | some soup =>
    match findCompanyAnchor soup with
    | none => ("", [])
    | some anchor =>
      let company := anchor.text
      let emails :=
        mailtoEmails soup ++ linkTextEmails soup ++ dataAttrEmails soup ++
          classEmails EMAIL_CLASSES soup ++ extract_emails_from_text soup.pageText
      (company, dedupSort (validate_emails emails))

end EmailExtractor

/-! ### ExtractionEmail.extract_emails_from_webpage
(src/src/utils_email.py lines 136-293) -/

namespace ExtractionEmail

def UNKNOWN_COMPANY : String := "Неизвестная компания"

/-- Fallback of the name heuristic: the stripped text of the title
element, else the unknown-company sentinel. -/
def companyFromTitle (soup : HtmlDoc) : String :=
  match soup.elems.find? (fun e => e.tag = "title") with
  | some t =>
      let c := pyStrip t.text
      if c.toList.isEmpty then UNKNOWN_COMPANY else c
  | none => UNKNOWN_COMPANY

/-- Embedding of ExtractionEmail.extract_company_name: the third span
carrying itemprop name (zero-indexed index 2, present only when more
than two such spans exist), stripped; if absent or empty fall back to
the title, then to the sentinel. -/
def extract_company_name (soup : HtmlDoc) : String :=
  let name_spans := soup.elems.filter (fun e =>
    e.tag = "span" && attrVal e "itemprop" = some "name")
  match name_spans.get? 2 with
  | some s =>
      let c := pyStrip s.text
      if c.toList.isEmpty then companyFromTitle soup else c
  | none => companyFromTitle soup

/-- Embedding of ExtractionEmail.extract_emails_from_webpage: name
heuristic, the five strategies in order, validation, then the unique
sorted list. -/
def extract_emails_from_webpage (content : Option HtmlDoc) : String × List String :=
  match content with
  | none => ("", [])
  | some soup =>
    let company := extract_company_name soup
    let emails :=
      mailtoEmailsStripped soup ++ linkTextEmails soup ++ dataAttrEmails soup ++
        classEmails EMAIL_CLASSES soup ++ extract_emails_from_text soup.pageText
    (company, dedupSort (validate_emails emails))

end ExtractionEmail

/-! ### Legacy extractor (src/email_extractor.py lines 80-123)

The legacy module has no company lookup, no full-page scan, a shorter
class list, and its local extract_emails_from_text neither validates nor
uses word boundaries; strategy outputs are deduplicated and sorted but
never filtered through the strict grammar. -/

namespace LegacyExtractor

def legacyLinkTextEmails (soup : HtmlDoc) : List String :=
  (soup.elems.filter (fun e => e.tag = "a")).flatMap (fun e =>
    let t := pyStrip e.text
    if t.toList.contains '@' && t.toList.contains '.' then
      legacy_extract_emails_from_text t
    else [])

def legacyDataAttrEmails (soup : HtmlDoc) : List String :=
  (soup.elems.filter (fun e =>
      DATA_EMAIL_ATTRS.any (fun a => (attrVal e a).isSome))).flatMap (fun e =>
    DATA_EMAIL_ATTRS.flatMap (fun a =>
      match attrVal e a with
      | some v => legacy_extract_emails_from_text v
      | none => []))

def legacyClassEmails (soup : HtmlDoc) : List String :=
  ["email", "mail", "e-mail", "contact-email"].flatMap (fun cn =>
    (soup.elems.filter (fun e => hasClassWord e cn)).flatMap (fun e =>
      legacy_extract_emails_from_text e.text))

/-- Embedding of the legacy extract_emails_from_webpage: mailto links,
link texts, data attributes and class scan, deduplicated and sorted, with
no validation pass. -/
def extract_emails_from_webpage (content : Option HtmlDoc) : List String :=
  match content with
  | none => []
  | some soup =>
      dedupSort (mailtoEmails soup ++ legacyLinkTextEmails soup ++
        legacyDataAttrEmails soup ++ legacyClassEmails soup)

end LegacyExtractor

/-! ### Resilient fetch (get_webpage_content)

Network outcomes are an oracle from the attempt number to the outcome of
that attempt of requests.get: either a response with its status and body,
or a transport-level RequestException.  Random proxy draws are an oracle
from the attempt number to a natural number.  The trace records the value
returned, the backoff sleeps in order, how many times the header set was
synthesized, and the proxy argument passed to each attempt. -/

inductive AttemptOutcome where
  | resp (status : Nat) (body : String)
  | exc
  deriving DecidableEq, Repr

/-- raise_for_status raises HTTPError exactly for the client and server
error ranges; such an HTTPError is a RequestException and lands in the
same except branch as a transport error. -/
def raisesForStatus (status : Nat) : Bool :=
  decide (400 ≤ status) && decide (status < 600)

/-- Whether an attempt takes the except RequestException branch. -/
def attemptFails : AttemptOutcome → Bool
  | .resp s _ => raisesForStatus s
  | .exc => true

/-- A proxy entry as built by norm_dict_url: the http and https url
strings of the dictionary. -/
structure ProxyDict where
  http : String
  https : String
  deriving DecidableEq, Repr

/-- Embedding of get_random_proxy (src/src/utils.py lines 343-355) with
the uniform draw of random.choice made explicit: empty list gives None,
otherwise the element at the draw modulo the length. -/
def get_random_proxy (proxies : List ProxyDict) (r : Nat) : Option ProxyDict :=
  if proxies.isEmpty then none else proxies.get? (r % proxies.length)

namespace EmailExtractor

structure GoResult where
  result : Option String
  sleeps : List Nat
  proxiesUsed : List (Option ProxyDict)
  deriving DecidableEq, Repr

/-- The retry loop of EmailExtractor.get_webpage_content, fuel counting
the attempts left of range(max_retries).  A fresh proxy is drawn inside
the loop body for every attempt; a sleep of two to the power attempt is
taken after a failure except after the last attempt. -/
def fetchGo (pool : List ProxyDict) (rng : Nat → Nat) (oracle : Nat → AttemptOutcome) :
    Nat → Nat → GoResult
  | _, 0 => ⟨none, [], []⟩
  | attempt, fuel + 1 =>
    let proxy := if pool.isEmpty then none else get_random_proxy pool (rng attempt)
    let failCont : GoResult :=
      if 0 < fuel then
        let rest := fetchGo pool rng oracle (attempt + 1) fuel
        ⟨rest.result, 2 ^ attempt :: rest.sleeps, proxy :: rest.proxiesUsed⟩
      else ⟨none, [], [proxy]⟩
    match oracle attempt with
    | .resp status body =>
        if raisesForStatus status then failCont else ⟨some body, [], [proxy]⟩
    | .exc => failCont

structure FetchTrace where
  result : Option String
  sleeps : List Nat
  headerCalls : Nat
  proxiesUsed : List (Option ProxyDict)
  deriving DecidableEq, Repr

/-- Embedding of EmailExtractor.get_webpage_content (src/src/
email_extractor.py lines 49-119): the header set is synthesized once,
before the loop, so every trace records exactly one header call; the
loop runs for at most max_retries attempts and falls through to None. -/
def get_webpage_content (pool : List ProxyDict) (rng : Nat → Nat)
    (oracle : Nat → AttemptOutcome) (max_retries : Nat) : FetchTrace :=
  let g := fetchGo pool rng oracle 0 max_retries
  ⟨g.result, g.sleeps, 1, g.proxiesUsed⟩

end EmailExtractor

namespace ExtractionEmail

/-- The retry loop of ExtractionEmail.get_webpage_content (src/src/
utils_email.py lines 95-134): same retry and backoff shape, no proxies,
and the fall-through value is the empty string instead of None. -/
def eeFetchGo (oracle : Nat → AttemptOutcome) : Nat → Nat → String × List Nat
  | _, 0 => ("", [])
  | attempt, fuel + 1 =>
    let failCont : String × List Nat :=
      if 0 < fuel then
        let rest := eeFetchGo oracle (attempt + 1) fuel
        (rest.1, 2 ^ attempt :: rest.2)
      else ("", [])
    match oracle attempt with
    | .resp status body =>
        if raisesForStatus status then failCont else (body, [])
    | .exc => failCont

def get_webpage_content (oracle : Nat → AttemptOutcome) (max_retries : Nat) :
    String × List Nat :=
  eeFetchGo oracle 0 max_retries

end ExtractionEmail

/-! ### Proxy vetting (src/src/utils.py lines 306-340)

The two probes are modelled as oracles: bad is the truthy result of
is_bad_proxy applied to the http url of the dictionary (an HTTP error
code or True after any exception, False when the relay test passed), and
meta is the status field reported by the proxy-metadata checker (False
when its answer is not a dictionary).  Both probes resolve every
candidate to a value, never to an uncaught exception, so one candidate
cannot abort the others.  The loop iterates over a copy of the list and
removes failing entries from the original with list.remove, which deletes
the first occurrence. -/

def goodGo (bad : String → Bool) (meta : ProxyDict → Bool) :
    List ProxyDict → List ProxyDict → List ProxyDict
  | [], cur => cur
  | p :: rest, cur =>
      goodGo bad meta rest (if bad p.http || !(meta p) then cur.erase p else cur)

def is_good_proxy (bad : String → Bool) (meta : ProxyDict → Bool)
    (proxy_file : List ProxyDict) : List ProxyDict :=
  goodGo bad meta proxy_file proxy_file

/-! ### OGRN to url mapping and the OGRN batch loop
(src/src/utils_email.py lines 318-375) -/

namespace ExtractionEmail

def BASE_URL_COMPANY : String := "https://companium.ru/id"

def BASE_URL_PEOPLE : String := "https://companium.ru/people/inn"

def OGRN_LENGTH_COMPANY : Nat := 13

def OGRN_LENGTH_PEOPLE : Nat := 15

/-- Embedding of ogrn_to_url on the already stringified identifier: a
thirteen-character code maps to the entity contacts path, a fifteen-
character code to the individual path, anything else to the empty string
after a warning. -/
def ogrn_to_url (ogrn_str : String) : String :=
  if ogrn_str.length = OGRN_LENGTH_COMPANY then
    BASE_URL_COMPANY ++ "/" ++ ogrn_str ++ "/contacts"
  else if ogrn_str.length = OGRN_LENGTH_PEOPLE then
    BASE_URL_PEOPLE ++ "/" ++ ogrn_str
  else ""

/-- Embedding of process_ogrn_list with the network pipeline abstracted
into the extract oracle from url to extraction result: an identifier
whose url comes back empty is skipped with a warning and the loop simply
continues; otherwise one row per email, or one row with an empty email
when none were found.  The inter-request sleep carries no data. -/
def process_ogrn_list (extract : String → String × List String) :
    List String → List (String × String)
  | [] => []
  | ogrn :: rest =>
    let url := ogrn_to_url ogrn
    if url = "" then process_ogrn_list extract rest
    else
      let res := extract url
      (if res.2.isEmpty then [(res.1, "")]
       else res.2.map (fun e => (res.1, e))) ++ process_ogrn_list extract rest

end ExtractionEmail

/-! ### Running statistics and the category batch loop
(src/src/utils.py lines 489-520, src/src/email_extractor.py lines
193-283).  One category is tracked, the one process_category registers. -/

structure ExtractionStats where
  total_urls : Nat
  successful_extractions : Nat
  failed_extractions : Nat
  total_emails_found : Nat
  cat_urls : Nat
  cat_successful : Nat
  cat_failed : Nat
  cat_emails : Nat
  deriving DecidableEq, Repr

/-- Fresh stats as built by the constructor (the wall-clock start time is
not modelled). -/
def ExtractionStats.init : ExtractionStats := ⟨0, 0, 0, 0, 0, 0, 0, 0⟩

/-- Embedding of add_category for the tracked category. -/
def ExtractionStats.add_category (st : ExtractionStats) (urls_count : Nat) :
    ExtractionStats :=
  { st with cat_urls := urls_count, cat_successful := 0, cat_failed := 0, cat_emails := 0 }

/-- Embedding of update_extraction (src/src/utils.py lines 509-520) with
the category present in the dictionary. -/
def ExtractionStats.update_extraction (st : ExtractionStats) (success : Bool)
    (emails_count : Nat) : ExtractionStats :=
  if success then
    { st with
      successful_extractions := st.successful_extractions + 1,
      total_emails_found := st.total_emails_found + emails_count,
      cat_successful := st.cat_successful + 1,
      cat_emails := st.cat_emails + emails_count }
  else
    { st with
      failed_extractions := st.failed_extractions + 1,
      cat_failed := st.cat_failed + 1 }

namespace EmailExtractor

/-- Embedding of process_single_url (src/src/email_extractor.py lines
193-220) given the result of extract_emails_from_webpage for the url:
the database writes do not touch the stats; a nonempty email list is
recorded as a successful extraction, an empty one as failed. -/
def process_single_url (res : String × List String) (st : ExtractionStats) :
    ExtractionStats × List String :=
  let emails := res.2
  if emails.isEmpty then (st.update_extraction false 0, emails)
  else (st.update_extraction true emails.length, emails)

/-- The per-url loop of process_category: the step oracle returns either
the extraction result consumed by process_single_url, or error when the
body of the try raises; a raising url is recorded as one failed
extraction by the except branch (lines 259-261) and the loop continues
with the next url.  The inter-request sleep carries no data. -/
def categoryGo (step : String → Except Unit (String × List String)) :
    List String → ExtractionStats → List String → ExtractionStats × List String
  | [], st, all_emails => (st, all_emails)
  | url :: rest, st, all_emails =>
    match step url with
    | .ok res =>
        let pr := process_single_url res st
        categoryGo step rest pr.1 (all_emails ++ pr.2)
    | .error _ => categoryGo step rest (st.update_extraction false 0) all_emails

/-- Embedding of process_category (src/src/email_extractor.py lines
222-283): an empty url list returns early; otherwise the category is
registered, the urls counted, the loop run, and the unique sorted union
of every harvested email returned with the final stats. -/
def process_category (step : String → Except Unit (String × List String))
    (urls : List String) (st : ExtractionStats) : ExtractionStats × List String :=
  if urls.isEmpty then (st, [])
  else
    let st1 := { st.add_category urls.length with total_urls := st.total_urls + urls.length }
    let loopRes := categoryGo step urls st1 []
    (loopRes.1, dedupSort loopRes.2)

end EmailExtractor

/-! ### Claims about validation (C1, C3) -/

/-- C1 counterexample: the string with one uppercase letter is accepted by
the grammar under case-insensitive matching (its lowercasing matches) but
the validator, whose pattern is all-lowercase and compiled without the
ignore-case flag, rejects it, so validate does not return it. -/
theorem email_validation_case_sensitive_cex :
    is_valid_email "a@b.co" = true ∧
    is_valid_email "A@b.co" = false ∧
    validate_emails ["A@b.co"] ≠ ["A@b.co"] := by decide

/-- C1 (amended): validation is case-sensitive, accepting exactly the
strings that match the all-lowercase pattern as written; for every string
the pattern accepts, validate of the singleton returns the singleton with
the original string unchanged. -/
theorem email_validation_lowercase_idempotent (e : String)
    (h : is_valid_email e = true) : validate_emails [e] = [e] := by
  simp [validate_emails, h]

theorem email_validation_lowercase_idempotent_witness :
    validate_emails ["a@b.co"] = ["a@b.co"] :=
  email_validation_lowercase_idempotent "a@b.co" (by decide)

/-- C3 counterexample: validate_emails keeps order and duplicates, so on a
list of three valid addresses with one duplicate it returns all three in
input order, not the two-element sorted set the claim requires. -/
theorem validate_emails_no_sort_dedup_cex :
    validate_emails ["b@c.co", "a@c.co", "a@c.co"] =
      ["b@c.co", "a@c.co", "a@c.co"] ∧
    dedupSort ["b@c.co", "a@c.co", "a@c.co"] = ["a@c.co", "b@c.co"] ∧
    validate_emails ["b@c.co", "a@c.co", "a@c.co"] ≠
      dedupSort (validate_emails ["b@c.co", "a@c.co", "a@c.co"]) := by decide

/-- C3 (amended): validate_emails is an order- and multiplicity-preserving
filter of the matching inputs; the sorted duplicate-free set is produced
only by the sorted-set step the extractor applies afterwards, whose
output is ascending, duplicate-free and holds exactly the distinct
matching inputs. -/
theorem validate_filter_then_dedup_sort (l : List String) :
    validate_emails l = l.filter (fun e => is_valid_email e) ∧
    (dedupSort (validate_emails l)).Sorted (fun a b => strLe a b = true) ∧
    (dedupSort (validate_emails l)).Nodup ∧
    ∀ e, e ∈ dedupSort (validate_emails l) ↔ e ∈ l ∧ is_valid_email e = true := by
  refine ⟨rfl, sorted_dedupSort _, nodup_dedupSort _, fun e => ?_⟩
  rw [mem_dedupSort, validate_emails, List.mem_filter]

/-! ### Claims about extractor output (C2, C10) -/

def legacyCexDoc : HtmlDoc :=
  ⟨[⟨"a", [("href", "mailto:NOT VALID@x?subject=hi")], ""⟩], ""⟩

/-- C2 counterexample: the legacy extractor returns the raw remainder of a
mailto href unfiltered, and that remainder fails the strict grammar. -/
theorem legacy_extractor_returns_unvalidated_cex :
    LegacyExtractor.extract_emails_from_webpage (some legacyCexDoc) =
      ["NOT VALID@x"] ∧
    is_valid_email "NOT VALID@x" = false := by decide

/-- C2 (amended): the two extractors of the src/src package pass every
candidate through validate_emails before deduplication, so each string in
their returned email list satisfies the strict grammar; the legacy
top-level module does not validate. -/
theorem extractor_output_validated (content : Option HtmlDoc) (e : String) :
    (e ∈ (EmailExtractor.extract_emails_from_webpage content).2 →
      is_valid_email e = true) ∧
    (e ∈ (ExtractionEmail.extract_emails_from_webpage content).2 →
      is_valid_email e = true) := by
  constructor
  · intro h
    cases content with
    | none => simp [EmailExtractor.extract_emails_from_webpage] at h
    | some soup =>
      rw [EmailExtractor.extract_emails_from_webpage] at h
      cases hf : EmailExtractor.findCompanyAnchor soup with
      | none => rw [hf] at h; simp at h
      | some a =>
        rw [hf] at h
        simp only [mem_dedupSort, validate_emails] at h
        exact (List.mem_filter.mp h).2
  · intro h
    cases content with
    | none => simp [ExtractionEmail.extract_emails_from_webpage] at h
    | some soup =>
      rw [ExtractionEmail.extract_emails_from_webpage] at h
      simp only [mem_dedupSort, validate_emails] at h
      exact (List.mem_filter.mp h).2

def validMailtoDoc : HtmlDoc :=
  ⟨[⟨"a", [("class", "link fw-700 fs-24")], "Firm LLC"⟩,
    ⟨"a", [("href", "mailto:info@site.ru")], ""⟩], ""⟩

theorem extractor_output_validated_witness :
    is_valid_email "info@site.ru" = true :=
  (extractor_output_validated (some validMailtoDoc) "info@site.ru").1 (by decide)

/-- C10: when the fetched document has no anchor with the exact class
string of the company-name lookup, the attribute access raises before any
strategy runs and the blanket handler returns the empty company name with
the empty email list, whatever emails the page contains. -/
theorem missing_company_anchor_empty_result (soup : HtmlDoc)
    (h : EmailExtractor.findCompanyAnchor soup = none) :
    EmailExtractor.extract_emails_from_webpage (some soup) = ("", []) := by
  rw [EmailExtractor.extract_emails_from_webpage, h]

def noAnchorDoc : HtmlDoc :=
  ⟨[⟨"a", [("href", "mailto:info@site.ru")], ""⟩], "contact info@site.ru"⟩

theorem missing_company_anchor_empty_result_witness :
    EmailExtractor.extract_emails_from_webpage (some noAnchorDoc) = ("", []) ∧
    is_valid_email "info@site.ru" = true ∧
    mailtoEmails noAnchorDoc = ["info@site.ru"] :=
  ⟨missing_company_anchor_empty_result noAnchorDoc (by decide), by decide, by decide⟩

/-! ### Claim about identifier mapping (C7) -/

/-- C7: a thirteen-digit code maps to the entity contacts template, a
fifteen-digit code to the individual template, and any other length gives
the empty url, upon which the batch loop skips the identifier (its rows
are exactly the rows of the rest, with no retry). -/
theorem ogrn_url_mapping (s : String)
    (extract : String → String × List String) (rest : List String) :
    (s.length = 13 → ExtractionEmail.ogrn_to_url s =
      ExtractionEmail.BASE_URL_COMPANY ++ "/" ++ s ++ "/contacts") ∧
    (s.length = 15 → ExtractionEmail.ogrn_to_url s =
      ExtractionEmail.BASE_URL_PEOPLE ++ "/" ++ s) ∧
    (s.length ≠ 13 → s.length ≠ 15 →
      ExtractionEmail.ogrn_to_url s = "" ∧
      ExtractionEmail.process_ogrn_list extract (s :: rest) =
        ExtractionEmail.process_ogrn_list extract rest) := by
  refine ⟨fun h13 => ?_, fun h15 => ?_, fun h13 h15 => ?_⟩
  · simp [ExtractionEmail.ogrn_to_url, ExtractionEmail.OGRN_LENGTH_COMPANY, h13]
  · simp [ExtractionEmail.ogrn_to_url, ExtractionEmail.OGRN_LENGTH_COMPANY,
      ExtractionEmail.OGRN_LENGTH_PEOPLE, h15]
  · have hu : ExtractionEmail.ogrn_to_url s = "" := by
      simp [ExtractionEmail.ogrn_to_url, ExtractionEmail.OGRN_LENGTH_COMPANY,
        ExtractionEmail.OGRN_LENGTH_PEOPLE, h13, h15]
    refine ⟨hu, ?_⟩
    rw [ExtractionEmail.process_ogrn_list, hu]
    simp

theorem ogrn_url_mapping_witness :
    ExtractionEmail.ogrn_to_url "1234567890123" =
      ExtractionEmail.BASE_URL_COMPANY ++ "/" ++ "1234567890123" ++ "/contacts" ∧
    ExtractionEmail.ogrn_to_url "123456789012345" =
      ExtractionEmail.BASE_URL_PEOPLE ++ "/" ++ "123456789012345" ∧
    ExtractionEmail.ogrn_to_url "12345" = "" ∧
    ExtractionEmail.process_ogrn_list (fun _ => ("", [])) ["12345"] = [] := by
  refine ⟨(ogrn_url_mapping "1234567890123" (fun _ => ("", [])) []).1 (by decide),
    (ogrn_url_mapping "123456789012345" (fun _ => ("", [])) []).2.1 (by decide),
    ((ogrn_url_mapping "12345" (fun _ => ("", [])) []).2.2 (by decide) (by decide)).1,
    (((ogrn_url_mapping "12345" (fun _ => ("", [])) []).2.2 (by decide) (by decide)).2).trans rfl⟩

/-! ### Claim about proxy vetting (C8) -/

/-- The copy-and-remove loop equals a filter: processing the remaining
suffix of the copied list against the current state, where the already
processed front segment has been reduced to its passing entries.  A
failing candidate is never inside that filtered segment, so list.remove
deletes precisely its own occurrence at the head of the suffix. -/
theorem goodGo_filter (bad : String → Bool) (meta : ProxyDict → Bool)
    (suf : List ProxyDict) :
    ∀ pre : List ProxyDict,
      goodGo bad meta suf ((pre.filter fun p => !(bad p.http) && meta p) ++ suf) =
        (pre ++ suf).filter (fun p => !(bad p.http) && meta p) := by
  induction suf with
  | nil => intro pre; simp [goodGo]
  | cons p rest ih =>
    intro pre
    rw [goodGo]
    by_cases hp : (bad p.http || !(meta p)) = true
    · have hkeep : (!(bad p.http) && meta p) = false := by
        cases hb : bad p.http <;> cases hm : meta p <;> simp_all
      have hnotmem : p ∉ pre.filter fun q => !(bad q.http) && meta q := by
        intro hmem
        have := (List.mem_filter.mp hmem).2
        rw [hkeep] at this
        exact Bool.false_ne_true this
      rw [if_pos hp, List.erase_append_right _ hnotmem, List.erase_cons_head]
      have := ih (pre ++ [p])
      simpa [List.filter_append, hkeep] using this
    · have hkeep : (!(bad p.http) && meta p) = true := by
        cases hb : bad p.http <;> cases hm : meta p <;> simp_all
      rw [if_neg hp]
      have := ih (pre ++ [p])
      simpa [List.filter_append, hkeep] using this

/-- C8: vetting returns exactly the candidates passing both probes, the
reachability relay (is_bad_proxy false) and the forwarding metadata check
(is_proxy truthy); probe outcomes are per-candidate values, so one failing
candidate never aborts the rest.  On five candidates with two reachability
failures and one metadata failure, exactly the remaining two survive. -/
theorem proxy_vetting_filter :
    (∀ (bad : String → Bool) (meta : ProxyDict → Bool) (l : List ProxyDict),
      is_good_proxy bad meta l = l.filter (fun p => !(bad p.http) && meta p)) ∧
    is_good_proxy (fun h => h = "http://p1" || h = "http://p2")
      (fun p => p.http != "http://p3")
      [⟨"http://p1", "https://p1"⟩, ⟨"http://p2", "https://p2"⟩,
       ⟨"http://p3", "https://p3"⟩, ⟨"http://p4", "https://p4"⟩,
       ⟨"http://p5", "https://p5"⟩] =
      [⟨"http://p4", "https://p4"⟩, ⟨"http://p5", "https://p5"⟩] := by
  constructor
  · intro bad meta l
    have := goodGo_filter bad meta l []
    simpa [is_good_proxy] using this
  · decide

/-! ### Helper lemmas about the retry loop -/

theorem fetchGo_fail_step (pool : List ProxyDict) (rng : Nat → Nat)
    (oracle : Nat → AttemptOutcome) (attempt fuel : Nat)
    (h : attemptFails (oracle attempt) = true) (hf : 0 < fuel) :
    EmailExtractor.fetchGo pool rng oracle attempt (fuel + 1) =
      ⟨(EmailExtractor.fetchGo pool rng oracle (attempt + 1) fuel).result,
       2 ^ attempt :: (EmailExtractor.fetchGo pool rng oracle (attempt + 1) fuel).sleeps,
       (if pool.isEmpty then none else get_random_proxy pool (rng attempt)) ::
         (EmailExtractor.fetchGo pool rng oracle (attempt + 1) fuel).proxiesUsed⟩ := by
  rw [EmailExtractor.fetchGo]
  cases ho : oracle attempt with
  | resp s b =>
      rw [ho] at h
      simp only [attemptFails] at h
      simp [h, hf]
  | exc => simp [hf]

theorem fetchGo_fail_last (pool : List ProxyDict) (rng : Nat → Nat)
    (oracle : Nat → AttemptOutcome) (attempt : Nat)
    (h : attemptFails (oracle attempt) = true) :
    EmailExtractor.fetchGo pool rng oracle attempt 1 =
      ⟨none, [],
       [if pool.isEmpty then none else get_random_proxy pool (rng attempt)]⟩ := by
  rw [show (1 : Nat) = 0 + 1 from rfl, EmailExtractor.fetchGo]
  cases ho : oracle attempt with
  | resp s b =>
      rw [ho] at h
      simp only [attemptFails] at h
      simp [h]
  | exc => simp

theorem fetchGo_success (pool : List ProxyDict) (rng : Nat → Nat)
    (oracle : Nat → AttemptOutcome) (attempt fuel : Nat) (s : Nat) (b : String)
    (h : oracle attempt = .resp s b) (hs : raisesForStatus s = false) :
    EmailExtractor.fetchGo pool rng oracle attempt (fuel + 1) =
      ⟨some b, [],
       [if pool.isEmpty then none else get_random_proxy pool (rng attempt)]⟩ := by
  rw [EmailExtractor.fetchGo, h]
  simp [hs]

theorem eeFetchGo_fail_step (oracle : Nat → AttemptOutcome) (attempt fuel : Nat)
    (h : attemptFails (oracle attempt) = true) (hf : 0 < fuel) :
    ExtractionEmail.eeFetchGo oracle attempt (fuel + 1) =
      ((ExtractionEmail.eeFetchGo oracle (attempt + 1) fuel).1,
       2 ^ attempt :: (ExtractionEmail.eeFetchGo oracle (attempt + 1) fuel).2) := by
  rw [ExtractionEmail.eeFetchGo]
  cases ho : oracle attempt with
  | resp s b =>
      rw [ho] at h
      simp only [attemptFails] at h
      simp [h, hf]
  | exc => simp [hf]

theorem eeFetchGo_fail_last (oracle : Nat → AttemptOutcome) (attempt : Nat)
    (h : attemptFails (oracle attempt) = true) :
    ExtractionEmail.eeFetchGo oracle attempt 1 = ("", []) := by
  rw [show (1 : Nat) = 0 + 1 from rfl, ExtractionEmail.eeFetchGo]
  cases ho : oracle attempt with
  | resp s b =>
      rw [ho] at h
      simp only [attemptFails] at h
      simp [h]
  | exc => simp

theorem eeFetchGo_success (oracle : Nat → AttemptOutcome) (attempt fuel : Nat)
    (s : Nat) (b : String)
    (h : oracle attempt = .resp s b) (hs : raisesForStatus s = false) :
    ExtractionEmail.eeFetchGo oracle attempt (fuel + 1) = (b, []) := by
  rw [ExtractionEmail.eeFetchGo, h]
  simp [hs]

/-! ### Claims about the resilient fetch (C4, C6, C5) -/

/-- C4: with three attempts allowed, two transient failures followed by a
success return the successful body after sleeping one then two seconds,
and three transient failures return the no-content value (None for
EmailExtractor, the empty string for ExtractionEmail) with the same two
sleeps; the RequestException handler converts every attempt failure into
a value, so nothing is raised past the loop. -/
theorem fetch_retry_backoff_and_exhaustion
    (rng : Nat → Nat) (oracle oracle2 : Nat → AttemptOutcome) (s : Nat) (b : String)
    (h0 : attemptFails (oracle 0) = true)
    (h1 : attemptFails (oracle 1) = true)
    (h2 : oracle 2 = .resp s b)
    (hs : raisesForStatus s = false)
    (e0 : attemptFails (oracle2 0) = true)
    (e1 : attemptFails (oracle2 1) = true)
    (e2 : attemptFails (oracle2 2) = true) :
    ((EmailExtractor.get_webpage_content [] rng oracle 3).result = some b ∧
     (EmailExtractor.get_webpage_content [] rng oracle 3).sleeps = [1, 2] ∧
     ExtractionEmail.get_webpage_content oracle 3 = (b, [1, 2])) ∧
    ((EmailExtractor.get_webpage_content [] rng oracle2 3).result = none ∧
     (EmailExtractor.get_webpage_content [] rng oracle2 3).sleeps = [1, 2] ∧
     ExtractionEmail.get_webpage_content oracle2 3 = ("", [1, 2])) := by
  have gA := fetchGo_fail_step [] rng oracle 0 2 h0 (by decide)
  have gB := fetchGo_fail_step [] rng oracle 1 1 h1 (by decide)
  have gC := fetchGo_success [] rng oracle 2 0 s b h2 hs
  have eA := eeFetchGo_fail_step oracle 0 2 h0 (by decide)
  have eB := eeFetchGo_fail_step oracle 1 1 h1 (by decide)
  have eC := eeFetchGo_success oracle 2 0 s b h2 hs
  have gA2 := fetchGo_fail_step [] rng oracle2 0 2 e0 (by decide)
  have gB2 := fetchGo_fail_step [] rng oracle2 1 1 e1 (by decide)
  have gC2 := fetchGo_fail_last [] rng oracle2 2 e2
  have eA2 := eeFetchGo_fail_step oracle2 0 2 e0 (by decide)
  have eB2 := eeFetchGo_fail_step oracle2 1 1 e1 (by decide)
  have eC2 := eeFetchGo_fail_last oracle2 2 e2
  refine ⟨⟨?_, ?_, ?_⟩, ⟨?_, ?_, ?_⟩⟩ <;>
    simp [EmailExtractor.get_webpage_content, ExtractionEmail.get_webpage_content,
      gA, gB, gC, eA, eB, eC, gA2, gB2, gC2, eA2, eB2, eC2]

theorem fetch_retry_backoff_and_exhaustion_witness :
    ((EmailExtractor.get_webpage_content [] (fun _ => 0)
        (fun i => if i < 2 then .exc else .resp 200 "page") 3).result = some "page" ∧
     (EmailExtractor.get_webpage_content [] (fun _ => 0)
        (fun i => if i < 2 then .exc else .resp 200 "page") 3).sleeps = [1, 2] ∧
     ExtractionEmail.get_webpage_content
        (fun i => if i < 2 then .exc else .resp 200 "page") 3 = ("page", [1, 2])) ∧
    ((EmailExtractor.get_webpage_content [] (fun _ => 0) (fun _ => .exc) 3).result = none ∧
     (EmailExtractor.get_webpage_content [] (fun _ => 0) (fun _ => .exc) 3).sleeps = [1, 2] ∧
     ExtractionEmail.get_webpage_content (fun _ => .exc) 3 = ("", [1, 2])) :=
  fetch_retry_backoff_and_exhaustion (fun _ => 0)
    (fun i => if i < 2 then .exc else .resp 200 "page") (fun _ => .exc) 200 "page"
    (by decide) (by decide) (by decide) (by decide) (by decide) (by decide) (by decide)

/-- C6 counterexample: when every attempt answers with the client error
status four-oh-three, the fetch still sleeps one and two seconds (so it
does retry) and its final value is identical to the one produced by plain
transport failures; there is no distinct non-retried blocked outcome. -/
theorem fetch_blocked_retried_cex :
    (EmailExtractor.get_webpage_content [] (fun _ => 0)
        (fun _ => .resp 403 "denied") 3).sleeps = [1, 2] ∧
    ([1, 2] : List Nat) ≠ [] ∧
    (EmailExtractor.get_webpage_content [] (fun _ => 0)
        (fun _ => .resp 403 "denied") 3).result =
      (EmailExtractor.get_webpage_content [] (fun _ => 0) (fun _ => .exc) 3).result := by
  decide

/-- C6 (amended): a blocking client error status raises HTTPError inside
raise_for_status, which the except RequestException branch treats exactly
like a transient failure: the fetch backs off, retries, and after the
last attempt returns None, indistinguishable from ordinary exhaustion. -/
theorem fetch_blocked_treated_transient
    (rng : Nat → Nat) (oracle : Nat → AttemptOutcome) (b0 b1 b2 : String)
    (h0 : oracle 0 = .resp 403 b0) (h1 : oracle 1 = .resp 403 b1)
    (h2 : oracle 2 = .resp 403 b2) :
    (EmailExtractor.get_webpage_content [] rng oracle 3).result = none ∧
    (EmailExtractor.get_webpage_content [] rng oracle 3).sleeps = [1, 2] := by
  have f0 : attemptFails (oracle 0) = true := by
    rw [h0]; simp only [attemptFails]; decide
  have f1 : attemptFails (oracle 1) = true := by
    rw [h1]; simp only [attemptFails]; decide
  have f2 : attemptFails (oracle 2) = true := by
    rw [h2]; simp only [attemptFails]; decide
  have gA := fetchGo_fail_step [] rng oracle 0 2 f0 (by decide)
  have gB := fetchGo_fail_step [] rng oracle 1 1 f1 (by decide)
  have gC := fetchGo_fail_last [] rng oracle 2 f2
  constructor <;> simp [EmailExtractor.get_webpage_content, gA, gB, gC]

theorem fetch_blocked_treated_transient_witness :
    (EmailExtractor.get_webpage_content [] (fun _ => 0)
        (fun _ => .resp 403 "denied") 3).result = none ∧
    (EmailExtractor.get_webpage_content [] (fun _ => 0)
        (fun _ => .resp 403 "denied") 3).sleeps = [1, 2] :=
  fetch_blocked_treated_transient (fun _ => 0) (fun _ => .resp 403 "denied")
    "denied" "denied" "denied" rfl rfl rfl

/-! ### Claim about per-attempt randomization (C5) -/

theorem proxy_choice_if_eq (pool : List ProxyDict) (r : Nat) :
    (if pool.isEmpty then none else get_random_proxy pool r) =
      get_random_proxy pool r := by
  by_cases h : pool.isEmpty <;> simp [get_random_proxy, h]

theorem proxies_cons_shape (pool : List ProxyDict) (rng : Nat → Nat)
    (attempt L : Nat) (tl : List (Option ProxyDict))
    (htl : tl = (List.range L).map (fun i => get_random_proxy pool (rng (attempt + 1 + i)))) :
    get_random_proxy pool (rng attempt) :: tl =
      (List.range (L + 1)).map (fun i => get_random_proxy pool (rng (attempt + i))) := by
  subst htl
  rw [List.range_succ_eq_map, List.map_cons, List.map_map]
  refine congrArg₂ List.cons (by simp) ?_
  apply List.map_congr_left
  intro i _
  simp only [Function.comp_apply, Nat.succ_eq_add_one]
  have : attempt + 1 + i = attempt + (i + 1) := by omega
  rw [this]

/-- Every attempt of the loop draws its own proxy: the list of proxies
passed to the attempts made is pointwise the uniform choice applied to
the random draw belonging to that attempt. -/
theorem fetchGo_proxiesUsed (pool : List ProxyDict) (rng : Nat → Nat)
    (oracle : Nat → AttemptOutcome) :
    ∀ fuel attempt,
      (EmailExtractor.fetchGo pool rng oracle attempt fuel).proxiesUsed =
        (List.range (EmailExtractor.fetchGo pool rng oracle attempt fuel).proxiesUsed.length).map
          (fun i => get_random_proxy pool (rng (attempt + i))) := by
  intro fuel
  induction fuel with
  | zero => intro attempt; simp [EmailExtractor.fetchGo]
  | succ fuel ih =>
    intro attempt
    rw [EmailExtractor.fetchGo]
    simp only [proxy_choice_if_eq]
    cases ho : oracle attempt with
    | exc =>
      cases fuel with
      | zero => simp [List.range_succ]
      | succ k =>
        simp only [Nat.succ_pos, if_pos, List.length_cons]
        exact proxies_cons_shape pool rng attempt _ _ (ih (attempt + 1))
    | resp s b =>
      by_cases hrs : raisesForStatus s = true
      · simp only [hrs, if_true]
        cases fuel with
        | zero => simp [List.range_succ]
        | succ k =>
          simp only [Nat.succ_pos, if_pos, List.length_cons]
          exact proxies_cons_shape pool rng attempt _ _ (ih (attempt + 1))
      · simp only [Bool.not_eq_true] at hrs
        simp [hrs, List.range_succ]

/-- C5 counterexample: over three failing attempts the trace records three
proxy draws but a single header synthesis, so the header set is not
freshly synthesized per attempt. -/
theorem fetch_headers_once_cex :
    (EmailExtractor.get_webpage_content [⟨"http://p", "https://p"⟩] (fun _ => 0)
        (fun _ => .exc) 3).headerCalls = 1 ∧
    (EmailExtractor.get_webpage_content [⟨"http://p", "https://p"⟩] (fun _ => 0)
        (fun _ => .exc) 3).proxiesUsed.length = 3 ∧
    ¬((EmailExtractor.get_webpage_content [⟨"http://p", "https://p"⟩] (fun _ => 0)
        (fun _ => .exc) 3).headerCalls =
      (EmailExtractor.get_webpage_content [⟨"http://p", "https://p"⟩] (fun _ => 0)
        (fun _ => .exc) 3).proxiesUsed.length) := by decide

/-- C5 (amended): the header set is synthesized exactly once per fetch
call, before the retry loop, and shared by all attempts; the proxy, by
contrast, is drawn afresh on every attempt via random.choice, and every
member of a configured pool is reachable by a draw. -/
theorem fetch_headers_once_proxy_per_attempt (pool : List ProxyDict)
    (rng : Nat → Nat) (oracle : Nat → AttemptOutcome) (n : Nat) :
    (EmailExtractor.get_webpage_content pool rng oracle n).headerCalls = 1 ∧
    (EmailExtractor.get_webpage_content pool rng oracle n).proxiesUsed =
      (List.range (EmailExtractor.get_webpage_content pool rng oracle n).proxiesUsed.length).map
        (fun i => get_random_proxy pool (rng i)) ∧
    (∀ p ∈ pool, ∃ r, get_random_proxy pool r = some p) := by
  refine ⟨rfl, ?_, ?_⟩
  · have h := fetchGo_proxiesUsed pool rng oracle n 0
    simpa [EmailExtractor.get_webpage_content] using h
  · intro p hp
    obtain ⟨i, hig⟩ := List.mem_iff_get.mp hp
    refine ⟨i.val, ?_⟩
    have hne : pool.isEmpty = false := by
      cases pool with
      | nil => simp at hp
      | cons q qs => rfl
    rw [get_random_proxy, hne]
    simp only [Bool.false_eq_true, if_false]
    rw [Nat.mod_eq_of_lt i.isLt, List.get?_eq_get i.isLt]
    exact congrArg some hig

theorem fetch_headers_once_proxy_per_attempt_witness :
    (EmailExtractor.get_webpage_content [⟨"http://p", "https://p"⟩] (fun _ => 0)
        (fun _ => .exc) 3).headerCalls = 1 ∧
    (∃ r, get_random_proxy [⟨"http://p", "https://p"⟩] r =
      some ⟨"http://p", "https://p"⟩) :=
  ⟨(fetch_headers_once_proxy_per_attempt [⟨"http://p", "https://p"⟩] (fun _ => 0)
      (fun _ => .exc) 3).1,
   (fetch_headers_once_proxy_per_attempt [⟨"http://p", "https://p"⟩] (fun _ => 0)
      (fun _ => .exc) 3).2.2 ⟨"http://p", "https://p"⟩ (by decide)⟩

/-! ### Claim about batch failure isolation (C9) -/

/-- C9: in a batch of three urls whose second fails at every stage (its
extraction either raises, caught by the except branch, or yields no
emails), the loop still processes the other two: starting from fresh
stats the run ends with two successful extractions, one failed
extraction, all three urls counted, and the sorted unique union of the
two harvested lists; the loop is a total function, so nothing escapes the
batch call. -/
theorem batch_failure_isolated
    (step : String → Except Unit (String × List String))
    (u1 u2 u3 c1 c2 c3 : String) (e1 e3 : List String)
    (h1 : step u1 = .ok (c1, e1)) (h1n : e1 ≠ [])
    (h2 : step u2 = .error () ∨ step u2 = .ok (c2, []))
    (h3 : step u3 = .ok (c3, e3)) (h3n : e3 ≠ []) :
    (EmailExtractor.process_category step [u1, u2, u3]
        ExtractionStats.init).1.successful_extractions = 2 ∧
    (EmailExtractor.process_category step [u1, u2, u3]
        ExtractionStats.init).1.failed_extractions = 1 ∧
    (EmailExtractor.process_category step [u1, u2, u3]
        ExtractionStats.init).1.total_urls = 3 ∧
    (EmailExtractor.process_category step [u1, u2, u3]
        ExtractionStats.init).2 = dedupSort (e1 ++ e3) := by
  have h1e : e1.isEmpty = false := by
    cases e1 with
    | nil => exact absurd rfl h1n
    | cons a as => rfl
  have h3e : e3.isEmpty = false := by
    cases e3 with
    | nil => exact absurd rfl h3n
    | cons a as => rfl
  rcases h2 with h2 | h2 <;>
    refine ⟨?_, ?_, ?_, ?_⟩ <;>
      simp [EmailExtractor.process_category, EmailExtractor.categoryGo,
        EmailExtractor.process_single_url, h1, h2, h3, h1e, h3e,
        ExtractionStats.update_extraction, ExtractionStats.add_category,
        ExtractionStats.init]

theorem batch_failure_isolated_witness :
    (EmailExtractor.process_category
        (fun u => if u = "u1" then .ok ("c", ["b@d.co", "a@d.co"])
          else if u = "u2" then .error ()
          else .ok ("c", ["a@d.co"]))
        ["u1", "u2", "u3"] ExtractionStats.init).1.successful_extractions = 2 ∧
    (EmailExtractor.process_category
        (fun u => if u = "u1" then .ok ("c", ["b@d.co", "a@d.co"])
          else if u = "u2" then .error ()
          else .ok ("c", ["a@d.co"]))
        ["u1", "u2", "u3"] ExtractionStats.init).1.failed_extractions = 1 ∧
    (EmailExtractor.process_category
        (fun u => if u = "u1" then .ok ("c", ["b@d.co", "a@d.co"])
          else if u = "u2" then .error ()
          else .ok ("c", ["a@d.co"]))
        ["u1", "u2", "u3"] ExtractionStats.init).1.total_urls = 3 ∧
    (EmailExtractor.process_category
        (fun u => if u = "u1" then .ok ("c", ["b@d.co", "a@d.co"])
          else if u = "u2" then .error ()
          else .ok ("c", ["a@d.co"]))
        ["u1", "u2", "u3"] ExtractionStats.init).2 =
      dedupSort (["b@d.co", "a@d.co"] ++ ["a@d.co"]) :=
  batch_failure_isolated
    (fun u => if u = "u1" then .ok ("c", ["b@d.co", "a@d.co"])
      else if u = "u2" then .error ()
      else .ok ("c", ["a@d.co"]))
    "u1" "u2" "u3" "c" "c" "c" ["b@d.co", "a@d.co"] ["a@d.co"]
    rfl (by decide) (Or.inl rfl) rfl (by decide)
